import Mathlib

/- Verification development for src/control/rover.py.

   Shallow embedding conventions:
   - a float sample value that may be NaN is modelled as an Option over the
     rationals, with none standing for NaN (the no-return marker);
   - angle values are produced from integer ranges and are never NaN, so they
     are modelled as plain rationals;
   - numpy row arrays become lists of pairs, one pair per row;
   - matplotlib and rendering calls have no effect on the modelled state and
     are recorded, where relevant, as entries of an event list carried in the
     state, in the order the source performs the corresponding mutation;
   - a python raise becomes an Except.error result. -/

/- Rows of one channel of a scan batch: (angle in degrees, radius or NaN).
   Mirrors the two-column ndarrays of rover.py. -/
abbrev Row : Type := ℚ × Option ℚ

/- Default row used for out-of-range indexing in the loop model; the loop of
   find_obj_clouds only ever indexes in range. -/
def dRow : Row := (0, none)

/- One scan batch as produced by Rover.scan: the ir channel rows and the
   sonar channel rows (rover.py lines 507-555). -/
structure ScanBatch where
  ir : List Row
  sonar : List Row
deriving DecidableEq

/- Insertion of a value into an ascending list, helper for sortAsc. -/
def insertAsc (x : ℚ) : List ℚ → List ℚ
  | [] => [x]
  | y :: ys => if x ≤ y then x :: y :: ys else y :: insertAsc x ys

/- Ascending sort of a list of values. np.sort applied to a plain value
   column (rover.py line 405) produces exactly the ascending reordering of
   the values, which is unique as a list, so any correct value sort embeds
   it faithfully. -/
def sortAsc : List ℚ → List ℚ
  | [] => []
  | x :: xs => insertAsc x (sortAsc xs)

/- np.sort on a float column that may hold NaN entries: the non-NaN values
   in ascending order followed by all the NaN entries (numpy sorts NaN to
   the end). Models the column-wise effect of rover.py line 405 on the
   radius column. -/
def sortRadii (rs : List (Option ℚ)) : List (Option ℚ) :=
  (sortAsc (rs.filterMap id)).map some ++
    List.replicate (rs.countP (fun r => r.isNone)) none

/- np.sort(arr, axis=0) on a two-column array (rover.py line 405): each
   column is sorted independently, so the angle column and the radius column
   are each ascending but a row of the result need not be a row of the
   input. -/
def sortChannel (rows : List Row) : List Row :=
  (sortAsc (rows.map Prod.fst)).zip (sortRadii (rows.map Prod.snd))

/- The np.append chain of rover.py lines 398-402: concatenation of the
   per-batch rows of one channel, in insertion order. -/
def combChannel (chs : List (List Row)) : List Row := chs.flatten

/- The merged view of one channel that find_obj_clouds builds before the
   segmentation loop (rover.py lines 398-405). -/
def mergedChannel (chs : List (List Row)) : List Row := sortChannel (combChannel chs)

/- Minimum angular width for an object to be recognized
   (rover.py line 415). -/
def min_width : ℚ := 3

/- One iteration of the segmentation loop of rover.py lines 423-444, at
   index i. The state is (open run, emitted clusters): the run component is
   some (start_deg, start_deg_index) when a run is open and none otherwise,
   mirroring the start_deg sentinel of the source (start_deg is reset to the
   integer 0 when no run is open, and an open run stores a numpy float that
   is never the integer 0 object). A cluster is the pair of its slice
   bounds (start_deg_index, i). The condition i == len(comb_scans[0] - 1)
   of line 430 compares i against the full length of the array, because the
   subtraction sits inside the len call, and i never reaches that value, so
   it contributes nothing to the branch and does not appear here. -/
def segStep (rows : List Row) (st : Option (ℚ × ℕ) × List (ℕ × ℕ)) (i : ℕ) :
    Option (ℚ × ℕ) × List (ℕ × ℕ) :=
  let row := rows.getD i dRow
  match st.1 with
  | none => if row.2.isSome then (some (row.1, i), st.2) else st
  | some (sa, si) =>
      if row.2.isSome then st
      else if min_width < row.1 - sa then (none, st.2 ++ [(si, i)])
      else (none, st.2)

/- The segmentation loop after the first m iterations of
   for i in range(0, len(comb_scans[0])) (rover.py line 423). -/
def segRun (rows : List Row) (m : ℕ) : Option (ℚ × ℕ) × List (ℕ × ℕ) :=
  (List.range m).foldl (segStep rows) (none, [])

/- The index ranges [start_deg_index, end_deg_index) of the clusters that
   the full segmentation loop of rover.py lines 423-444 appends to
   obj_list, in emission order. -/
def findClusters (rows : List Row) : List (ℕ × ℕ) :=
  (segRun rows rows.length).2

/- Python slice l[s:e], for the slices taken on rover.py line 440. -/
def pySlice (l : List Row) (s e : ℕ) : List Row := (l.take e).drop s

/- The Scanner of rover.py lines 324-348: the list of scan batches captured
   since the last reorientation. The polar plot held by the source object is
   render-only state and carries no information used by any operation
   modelled here. -/
structure Scanner where
  scans : List ScanBatch
deriving DecidableEq

/- Scanner() constructor (rover.py line 328): an empty batch list. -/
def Scanner.init : Scanner := ⟨[]⟩

/- Scanner.add_scan (rover.py lines 345-348): appends the batch. -/
def Scanner.add_scan (s : Scanner) (b : ScanBatch) : Scanner := ⟨s.scans ++ [b]⟩

/- Scanner.find_obj_clouds (rover.py lines 386-446). With no accumulated
   scans the source raises NotImplementedError (line 396), modelled as an
   error result. Otherwise both channels are concatenated and column-sorted
   (lines 398-405), the segmentation loop runs over the ir channel, and each
   emitted cluster carries the matching slices of both channels
   (line 440). -/
def Scanner.find_obj_clouds (s : Scanner) : Except Unit (List (List Row × List Row)) :=
  if s.scans.length < 1 then Except.error ()
  else
    let ir := mergedChannel (s.scans.map (fun b => b.ir))
    let sonar := mergedChannel (s.scans.map (fun b => b.sonar))
    Except.ok ((findClusters ir).map (fun se => (pySlice ir se.1 se.2, pySlice sonar se.1 se.2)))

/-- Claim C1: the claim states that the merged scan consists of the input
(angle, radius) samples stably reordered by ascending angle, each angle
keeping its original radius. The code instead sorts the angle column and the
radius column independently (np.sort with axis=0, rover.py line 405). On the
two batches [(20, 5)] and [(10, 7)] the merged scan pairs angle 10 with
radius 5, although the only input sample with angle 10 had radius 7, so the
claimed reordering property fails. -/
theorem c1_merge_decouples_columns :
    mergedChannel [[((20 : ℚ), some (5 : ℚ))], [(10, some 7)]] =
      [(10, some 5), (20, some 7)] ∧
    ((10 : ℚ), some (7 : ℚ)) ∉ mergedChannel [[((20 : ℚ), some (5 : ℚ))], [(10, some 7)]] := by
  decide

/-- Claim C4: the claim states that a run of valid readings still open at
sequence end is flushed with the same width test as a gap-terminated run.
In the source the end-of-data disjunct on line 430 reads
i == len(comb_scans[0] - 1), whose right side equals the full array length,
so it never holds and no flush ever happens. On a single batch whose ir
channel is [(10, 5), (20, 6), (30, 7)] the trailing run spans 20 degrees,
well above min_width, yet the returned cluster list is empty. -/
theorem c4_trailing_run_never_flushed :
    Scanner.find_obj_clouds ⟨[⟨[((10 : ℚ), some (5 : ℚ)), (20, some 6), (30, some 7)],
        [((10 : ℚ), some (5 : ℚ)), (20, some 6), (30, some 7)]⟩]⟩ = Except.ok [] ∧
    min_width < (30 : ℚ) - 10 := by
  constructor
  · norm_num [Scanner.find_obj_clouds, mergedChannel, sortChannel, combChannel,
      sortAsc, insertAsc, sortRadii, findClusters, segRun, segStep, List.range_succ,
      dRow, min_width]
  · norm_num [min_width]

/-- Claim C9, counterexample: the claim states that on an empty input (no
accumulated scan data) the segmenter returns an empty cluster sequence and
does not raise. The source raises NotImplementedError when the scan list is
empty (rover.py lines 394-396), modelled as an error result. -/
theorem c9_empty_input_is_error :
    Scanner.find_obj_clouds ⟨[]⟩ = Except.error () ∧
    Scanner.find_obj_clouds ⟨[]⟩ ≠ Except.ok [] := by
  constructor
  · simp [Scanner.find_obj_clouds]
  · simp [Scanner.find_obj_clouds]

/- Helper: in-range list indexing with a default reduces to getElem. -/
lemma getD_of_lt (l : List Row) {i : ℕ} (h : i < l.length) : l.getD i dRow = l[i] := by
  rw [List.getD_eq_getElem?_getD, List.getElem?_eq_getElem h, Option.getD_some]

/- Helper: in an angle-sorted row list, angles are monotone in the index. -/
lemma sorted_angle_le (rows : List Row) (hs : (rows.map Prod.fst).Pairwise (· ≤ ·))
    {i j : ℕ} (hij : i ≤ j) (hj : j < rows.length) :
    (rows.getD i dRow).1 ≤ (rows.getD j dRow).1 := by
  rcases Nat.lt_or_ge i j with hlt | hge
  · have hi : i < rows.length := Nat.lt_trans hlt hj
    rw [getD_of_lt rows hi, getD_of_lt rows hj]
    have hpair := List.pairwise_iff_getElem.mp hs i j (by simpa using hi) (by simpa using hj) hlt
    simpa using hpair
  · have heq : i = j := Nat.le_antisymm hij hge
    subst heq
    exact le_refl _

/- Invariant of the segmentation loop after m iterations: every emitted
   cluster (s, e) satisfies s < e < m, the row at e is the terminating gap,
   the row at s is a valid reading, and the width test of rover.py line 432
   held with the angle at the gap index e; the emitted ranges are pairwise
   disjoint in order; and an open run points at a valid reading below m that
   lies after every emitted range. -/
def SegInv (rows : List Row) (m : ℕ) (st : Option (ℚ × ℕ) × List (ℕ × ℕ)) : Prop :=
  (∀ p ∈ st.2, p.1 < p.2 ∧ p.2 < m ∧ (rows.getD p.2 dRow).2 = none ∧
      (rows.getD p.1 dRow).2 ≠ none ∧
      min_width < (rows.getD p.2 dRow).1 - (rows.getD p.1 dRow).1) ∧
  st.2.Pairwise (fun p q => p.2 < q.1) ∧
  (∀ sa si, st.1 = some (sa, si) → si < m ∧ sa = (rows.getD si dRow).1 ∧
      (rows.getD si dRow).2 ≠ none ∧ ∀ p ∈ st.2, p.2 < si)

lemma segRun_zero (rows : List Row) : segRun rows 0 = (none, []) := rfl

lemma segRun_succ (rows : List Row) (m : ℕ) :
    segRun rows (m + 1) = segStep rows (segRun rows m) m := by
  simp [segRun, List.range_succ]

lemma seg_inv (rows : List Row) : ∀ m : ℕ, SegInv rows m (segRun rows m) := by
  intro m
  induction m with
  | zero =>
      simp only [SegInv, segRun_zero]
      refine ⟨by simp, by simp, ?_⟩
      intro sa si h
      simp at h
  | succ m ih =>
      rw [segRun_succ]
      rcases hst : segRun rows m with ⟨run, objs⟩
      rw [hst] at ih
      simp only [SegInv] at ih ⊢
      obtain ⟨I1, I2, I3⟩ := ih
      have hmono : ∀ p ∈ objs, p.1 < p.2 ∧ p.2 < m + 1 ∧ (rows.getD p.2 dRow).2 = none ∧
          (rows.getD p.1 dRow).2 ≠ none ∧
          min_width < (rows.getD p.2 dRow).1 - (rows.getD p.1 dRow).1 := by
        intro p hp
        obtain ⟨h1, h2, h3, h4, h5⟩ := I1 p hp
        exact ⟨h1, Nat.lt_succ_of_lt h2, h3, h4, h5⟩
      cases run with
      | none =>
          rcases hrow : (rows.getD m dRow).2 with _ | v
          · have hstep : segStep rows (none, objs) m = (none, objs) := by
              simp only [segStep]
              rw [if_neg (by rw [hrow]; simp)]
            rw [hstep]
            refine ⟨hmono, I2, ?_⟩
            intro sa si h
            simp at h
          · have hstep : segStep rows (none, objs) m =
                (some ((rows.getD m dRow).1, m), objs) := by
              simp only [segStep]
              rw [if_pos (by rw [hrow]; rfl)]
            rw [hstep]
            refine ⟨hmono, I2, ?_⟩
            intro sa si h
            simp only [Option.some_inj, Prod.mk.injEq] at h
            obtain ⟨h1, h2⟩ := h
            subst h2
            refine ⟨Nat.lt_succ_self m, h1.symm, by rw [hrow]; simp, ?_⟩
            intro p hp
            exact (I1 p hp).2.1
      | some pr =>
          obtain ⟨sa0, si0⟩ := pr
          obtain ⟨hsi0, hsa0, hval0, hlt0⟩ := I3 sa0 si0 rfl
          rcases hrow : (rows.getD m dRow).2 with _ | v
          · by_cases hspan : min_width < (rows.getD m dRow).1 - sa0
            · have hstep : segStep rows (some (sa0, si0), objs) m =
                  (none, objs ++ [(si0, m)]) := by
                simp only [segStep]
                rw [if_neg (by rw [hrow]; simp), if_pos hspan]
              rw [hstep]
              refine ⟨?_, ?_, ?_⟩
              · intro p hp
                rcases List.mem_append.mp hp with hpo | hpn
                · exact hmono p hpo
                · have hpe : p = (si0, m) := by simpa using hpn
                  subst hpe
                  refine ⟨hsi0, Nat.lt_succ_self m, hrow, hval0, ?_⟩
                  rw [← hsa0]
                  exact hspan
              · rw [List.pairwise_append]
                refine ⟨I2, List.pairwise_singleton _ _, ?_⟩
                intro a ha b hb
                have hbe : b = (si0, m) := by simpa using hb
                subst hbe
                exact hlt0 a ha
              · intro sa si h
                simp at h
            · have hstep : segStep rows (some (sa0, si0), objs) m = (none, objs) := by
                simp only [segStep]
                rw [if_neg (by rw [hrow]; simp), if_neg hspan]
              rw [hstep]
              refine ⟨hmono, I2, ?_⟩
              intro sa si h
              simp at h
          · have hstep : segStep rows (some (sa0, si0), objs) m =
                (some (sa0, si0), objs) := by
              simp only [segStep]
              rw [if_pos (by rw [hrow]; rfl)]
            rw [hstep]
            refine ⟨hmono, I2, ?_⟩
            intro sa si h
            simp only [Option.some_inj, Prod.mk.injEq] at h
            obtain ⟨h1, h2⟩ := h
            subst h1
            subst h2
            exact ⟨Nat.lt_succ_of_lt hsi0, hsa0, hval0, hlt0⟩

/-- Claim C6 (amended): for every merged input sequence, every cluster the
segmentation loop emits is a range (s, e) with s < e within bounds whose
terminating sample at index e is a gap, and the width test the code applies
measures from the start angle to the angle of that terminating gap sample,
not to the last contained sample: that difference exceeds min_width. The
emitted ranges are pairwise disjoint in emission order, and when the input
angles are ascending the start angles of the emitted clusters are strictly
increasing. The original span condition of the claim, measured at the last
contained angle, is refuted by c6_emits_narrow_cluster. -/
theorem c6_cluster_invariants (rows : List Row) :
    (∀ p ∈ findClusters rows, p.1 < p.2 ∧ p.2 < rows.length ∧
        (rows.getD p.2 dRow).2 = none ∧
        min_width < (rows.getD p.2 dRow).1 - (rows.getD p.1 dRow).1) ∧
    (findClusters rows).Pairwise (fun p q => p.2 < q.1) ∧
    ((rows.map Prod.fst).Pairwise (· ≤ ·) →
      (findClusters rows).Pairwise
        (fun p q => (rows.getD p.1 dRow).1 < (rows.getD q.1 dRow).1)) := by
  have h := seg_inv rows rows.length
  simp only [SegInv] at h
  obtain ⟨I1, I2, I3⟩ := h
  have hfc : findClusters rows = (segRun rows rows.length).2 := rfl
  refine ⟨?_, ?_, ?_⟩
  · intro p hp
    rw [hfc] at hp
    obtain ⟨h1, h2, h3, _h4, h5⟩ := I1 p hp
    exact ⟨h1, h2, h3, h5⟩
  · rw [hfc]
    exact I2
  · intro hsorted
    rw [hfc]
    refine List.Pairwise.imp_of_mem ?_ I2
    intro a b ha hb hR
    obtain ⟨ha1, ha2, _ha3, _ha4, ha5⟩ := I1 a ha
    obtain ⟨hb1, hb2, _hb3, _hb4, _hb5⟩ := I1 b hb
    have hw : (0 : ℚ) < min_width := by norm_num [min_width]
    have h1 : (rows.getD a.1 dRow).1 < (rows.getD a.2 dRow).1 := by linarith
    have h2 : (rows.getD a.2 dRow).1 ≤ (rows.getD b.1 dRow).1 :=
      sorted_angle_le rows hsorted (Nat.le_of_lt hR) (Nat.lt_trans hb1 hb2)
    exact lt_of_lt_of_le h1 h2

/- Concrete scanner for the claim C6 counterexample: a single batch whose ir
   channel holds a NaN radius between two valid ones, so that the column-wise
   sort of line 405 leaves the gap at the end of the merged view. -/
def scansC6 : Scanner :=
  ⟨[⟨[((0 : ℚ), some (5 : ℚ)), (1, none), (10, some 5)],
     [((0 : ℚ), some (5 : ℚ)), (1, none), (10, some 5)]⟩]⟩

def mergedC6 : List Row := mergedChannel (scansC6.scans.map (fun b => b.ir))

/-- Claim C6, counterexample: the claim states that every emitted cluster has
angular span, last contained angle minus first contained angle, strictly
greater than 3 degrees. On the merged scan [(0, 5), (1, 5), (10, NaN)] the
loop emits the cluster with index range [0, 2), whose contained angles are 0
and 1: span 1. The width test of rover.py line 432 passed only because it
uses the angle of the terminating gap sample, 10. -/
theorem c6_emits_narrow_cluster :
    mergedC6 = [((0 : ℚ), some (5 : ℚ)), (1, some 5), (10, none)] ∧
    findClusters mergedC6 = [(0, 2)] ∧
    ¬ (min_width < (mergedC6.getD 1 dRow).1 - (mergedC6.getD 0 dRow).1) := by
  have hm : mergedC6 = [((0 : ℚ), some (5 : ℚ)), (1, some 5), (10, none)] := by decide
  refine ⟨hm, ?_, ?_⟩
  · rw [hm]
    norm_num [findClusters, segRun, segStep, List.range_succ, dRow, min_width]
  · rw [hm]
    norm_num [dRow, min_width]

/- Concrete sorted input for the claim C6 witness. -/
def rowsC6w : List Row := [((0 : ℚ), some (1 : ℚ)), (10, none), (20, some 1), (30, none)]

/-- Witness for claim C6: the amended theorem applied to a concrete
angle-sorted merged sequence, discharging the sortedness hypothesis of its
third part. -/
theorem c6_cluster_invariants_witness :
    (rowsC6w.map Prod.fst).Pairwise (· ≤ ·) ∧
    (findClusters rowsC6w).Pairwise
      (fun p q => (rowsC6w.getD p.1 dRow).1 < (rowsC6w.getD q.1 dRow).1) :=
  ⟨by decide, (c6_cluster_invariants rowsC6w).2.2 (by decide)⟩

/- Helper: with every radius a gap, the segmentation loop never opens a run
   and emits nothing. -/
lemma segRun_all_gaps (rows : List Row) (h : ∀ p ∈ rows, p.2 = none) :
    ∀ m : ℕ, segRun rows m = (none, []) := by
  intro m
  induction m with
  | zero => rfl
  | succ m ih =>
      rw [segRun_succ, ih]
      have hrow : (rows.getD m dRow).2 = none := by
        rcases Nat.lt_or_ge m rows.length with hlt | hge
        · have hmem : rows.getD m dRow ∈ rows := by
            rw [getD_of_lt rows hlt]
            exact List.getElem_mem hlt
          exact h _ hmem
        · rw [List.getD_eq_default _ _ hge]
          rfl
      simp only [segStep]
      rw [if_neg (by rw [hrow]; simp)]

/-- Claim C9 (amended): on a nonempty scan list all of whose ir radius
values are no-return gaps, find_obj_clouds returns an empty cluster sequence
and no error; on an empty scan list, however, it raises (see
c9_empty_input_is_error), so only the all-gap half of the claim holds as
stated. -/
theorem c9_all_gap_returns_empty (s : Scanner) (hne : s.scans ≠ [])
    (hgap : ∀ b ∈ s.scans, ∀ r ∈ b.ir, r.2 = none) :
    Scanner.find_obj_clouds s = Except.ok [] := by
  have hlen : ¬ s.scans.length < 1 := by
    simp only [Nat.lt_one_iff, List.length_eq_zero]
    exact hne
  have hall : ∀ p ∈ mergedChannel (s.scans.map (fun b => b.ir)), p.2 = none := by
    intro p hp
    obtain ⟨pa, pb⟩ := p
    have hpb := (List.of_mem_zip hp).2
    have hnil : ((combChannel (s.scans.map (fun b => b.ir))).map Prod.snd).filterMap id = [] := by
      rw [List.filterMap_eq_nil_iff]
      intro a ha
      rw [List.mem_map] at ha
      obtain ⟨r, hr, ha2⟩ := ha
      simp only [combChannel] at hr
      rw [List.mem_flatten] at hr
      obtain ⟨ch, hch, hrch⟩ := hr
      rw [List.mem_map] at hch
      obtain ⟨b, hb, hbe⟩ := hch
      subst hbe
      subst ha2
      exact hgap b hb r hrch
    simp only [sortChannel, sortRadii, hnil] at hpb
    simp only [sortAsc, List.map_nil, List.nil_append] at hpb
    exact List.eq_of_mem_replicate hpb
  have hclusters : findClusters (mergedChannel (s.scans.map (fun b => b.ir))) = [] := by
    unfold findClusters
    rw [segRun_all_gaps _ hall]
  unfold Scanner.find_obj_clouds
  rw [if_neg hlen]
  simp [hclusters]

/- Concrete all-gap scanner for the claim C9 witness. -/
def scansC9w : Scanner := ⟨[⟨[((10 : ℚ), (none : Option ℚ))], [((10 : ℚ), (none : Option ℚ))]⟩]⟩

/-- Witness for claim C9: the amended theorem applied to a concrete nonempty
all-gap scan list. -/
theorem c9_all_gap_witness :
    scansC9w.scans ≠ [] ∧ Scanner.find_obj_clouds scansC9w = Except.ok [] :=
  ⟨by decide, c9_all_gap_returns_empty scansC9w (by decide) (by decide)⟩

/- Render-stream events, used to record the order in which the modelled
   operations mutate state or emit side effects. Each Environment or Rover
   operation appends its events at the point in control flow where the
   source performs the corresponding statement. -/
inductive REvent where
  | poseChanged
  | breadcrumbAdded
  | scanPointsAdded
  | contoursFinalized
  | dangerAdded
  | scannerReplaced
deriving DecidableEq

/- A contour as appended by Environment.add_contour (rover.py line 197):
   the plotted polyline, kept as its x list and its y list. -/
abbrev Contour : Type := List ℝ × List ℝ

/- Stop codes reported by the actuator after a move; the source compares
   the reported code against OIStopID.full_distance (rover.py line 573). -/
inductive OIStopID where
  | full_distance
  | other (code : ℕ)
deriving DecidableEq

/- The Environment of rover.py lines 32-317. The matplotlib axis, the scan
   field wedge and the danger lists (bumps, cliffs, drops, tape, which no
   modelled operation ever appends to: add_danger only writes a diagnostic
   string) are render-only and are represented by the event list alone. -/
structure Environment where
  loc : ℝ × ℝ
  direction : ℝ
  breadcrumbs : List ((ℝ × ℝ) × ℝ)
  ir_obs : List (List (Option (ℝ × ℝ)))
  sonar_obs : List (List (Option (ℝ × ℝ)))
  contours : List Contour
  volatile_contours : List Contour
  events : List REvent

/- Environment() constructor (rover.py lines 36-75): origin location,
   direction 90 degrees, all collections empty. -/
noncomputable def Environment.init : Environment :=
  ⟨(0, 0), 90, [], [], [], [], [], []⟩

/- Environment.conv_radial (rover.py lines 274-283). -/
noncomputable def Environment.conv_radial (e : Environment) (theta r : ℚ) : ℝ × ℝ :=
  let thetaP : ℝ := ((theta : ℝ) - 90 + e.direction) * (Real.pi / 180)
  ((r : ℝ) * Real.cos thetaP + e.loc.1, (r : ℝ) * Real.sin thetaP + e.loc.2)

/- Environment.conv_radial_arr (rover.py lines 288-317): raises ValueError
   when the two columns differ in length (modelled as an error result),
   otherwise applies the conv_radial formula rowwise; a NaN radius yields a
   NaN point, kept as none. -/
noncomputable def Environment.conv_radial_arr (e : Environment)
    (thetas : List ℚ) (rs : List (Option ℚ)) : Except Unit (List (Option (ℝ × ℝ))) :=
  if thetas.length = rs.length then
    Except.ok ((thetas.zip rs).map (fun p => p.2.map (fun r => e.conv_radial p.1 r)))
  else Except.error ()

/- The setter half of Environment.loc (rover.py lines 87-97): stores the
   new location; update_scan_field and draw are render-only, recorded as the
   pose-changed event. -/
def Environment.loc_set (e : Environment) (nl : ℝ × ℝ) : Environment :=
  { e with loc := nl, events := e.events ++ [REvent.poseChanged] }

/- The setter half of Environment.direction (rover.py lines 113-125). -/
def Environment.direction_set (e : Environment) (nd : ℝ) : Environment :=
  { e with direction := nd, events := e.events ++ [REvent.poseChanged] }

/- Environment.add_breadcumb (rover.py lines 167-176): a circle of radius
   16.25 centered at the current location is appended. -/
noncomputable def Environment.add_breadcumb (e : Environment) : Environment :=
  { e with breadcrumbs := e.breadcrumbs ++ [(e.loc, (16.25 : ℝ))],
           events := e.events ++ [REvent.breadcrumbAdded] }

/- Environment.move (rover.py lines 102-108): breadcrumb first, at the
   pre-move location, then the location is set to conv_radial(90, dist). -/
noncomputable def Environment.move (e : Environment) (dist : ℚ) : Environment :=
  let e1 := e.add_breadcumb
  e1.loc_set (e1.conv_radial 90 dist)

/- Environment.rotate (rover.py lines 130-135): adds delta to the current
   direction, with no normalization. -/
noncomputable def Environment.rotate (e : Environment) (delta : ℚ) : Environment :=
  e.direction_set (e.direction + (delta : ℝ))

/- Environment.add_scan (rover.py lines 140-162). The ir channel is
   projected from its angle and radius columns; the sonar call on line 146
   passes column 0 twice, so the sonar channel is projected with its angle
   column also standing in as the radius column (those values are angles,
   hence never NaN, which the embedding records by wrapping them in some).
   Both calls convert columns of one two-column array, so the length guard
   of conv_radial_arr cannot fire; the error fallback is unreachable. -/
noncomputable def Environment.add_scan (e : Environment) (b : ScanBatch) : Environment :=
  match e.conv_radial_arr (b.ir.map Prod.fst) (b.ir.map Prod.snd),
        e.conv_radial_arr (b.sonar.map Prod.fst) ((b.sonar.map Prod.fst).map some) with
  | Except.ok ips, Except.ok sps =>
      { e with ir_obs := e.ir_obs ++ [ips], sonar_obs := e.sonar_obs ++ [sps],
               events := e.events ++ [REvent.scanPointsAdded] }
  | _, _ => e

/- Environment.add_danger (rover.py lines 181-189): the temporary
   workaround only writes a diagnostic string; no danger list changes. -/
def Environment.add_danger (e : Environment) (_id : OIStopID) : Environment :=
  { e with events := e.events ++ [REvent.dangerAdded] }

/- Environment.add_contour (rover.py lines 194-201). -/
def Environment.add_contour (e : Environment) (xs ys : List ℝ) (volatile : Bool) : Environment :=
  if volatile then { e with volatile_contours := e.volatile_contours ++ [(xs, ys)] }
  else { e with contours := e.contours ++ [(xs, ys)] }

/- Environment.finalize_contours (rover.py lines 206-223): extends the
   finalized list with the volatile ones, then calls
   _clear_volatile_contours, whose entire body is commented out, so the
   volatile list is left unchanged. -/
def Environment.finalize_contours (e : Environment) : Environment :=
  { e with contours := e.contours ++ e.volatile_contours,
           events := e.events ++ [REvent.contoursFinalized] }

/- The Rover of rover.py lines 468-610: the environment map and the current
   scanner. The sentinel handle and the calibration converters are external
   collaborators. -/
structure Rover where
  env : Environment
  scanner : Scanner

/- Rover() constructor tail (rover.py lines 495-496). -/
noncomputable def Rover.init : Rover := ⟨Environment.init, Scanner.init⟩

/- Rover._finalize_for_reorientation (rover.py lines 601-610): replaces the
   scanner with a fresh one, then finalizes the environment contours. -/
def Rover.finalize_for_reorientation (s : Rover) : Rover :=
  let e1 : Environment := { s.env with events := s.env.events ++ [REvent.scannerReplaced] }
  let s1 : Rover := ⟨e1, Scanner.init⟩
  { s1 with env := s1.env.finalize_contours }

/- Rover.move (rover.py lines 560-574): finalize-for-reorientation first,
   then the hardware move (whose reported actual distance and stop reason
   are parameters here), then Environment.move with the actual distance,
   then a danger report when the stop reason is not full_distance. -/
noncomputable def Rover.move (s : Rover) (_dist _speed actual : ℚ) (stop : OIStopID) : Rover :=
  let s1 := Rover.finalize_for_reorientation s
  let s2 : Rover := { s1 with env := s1.env.move actual }
  if stop ≠ OIStopID.full_distance then { s2 with env := s2.env.add_danger stop } else s2

/- Rover.rotate (rover.py lines 579-588): finalize-for-reorientation first,
   then the hardware rotation, then Environment.rotate. -/
noncomputable def Rover.rotate (s : Rover) (delta : ℚ) : Rover :=
  let s1 := Rover.finalize_for_reorientation s
  { s1 with env := s1.env.rotate delta }

/- Python range(a, b) with step 1. -/
def pyRangeAsc (a b : ℤ) : List ℤ := (List.range (b - a).toNat).map (fun (i : ℕ) => a + (i : ℤ))

/- Python range(a, b, -1): a, a-1, ..., b+1; empty when a ≤ b. -/
def pyRangeDesc (a b : ℤ) : List ℤ := (List.range (a - b).toNat).map (fun (i : ℕ) => a - (i : ℤ))

/- The angle sequence Rover.scan builds (rover.py lines 534-538):
   range(start, end) when start <= end, else range(end, start, -1). -/
def Rover.scanAngles (start fin : ℤ) : List ℤ :=
  if start ≤ fin then pyRangeAsc start fin else pyRangeDesc fin start

/- Helper: the angular argument 90 degrees at direction 90 is pi/2. -/
lemma ninety_at_dir_ninety : ((((90 : ℚ) : ℝ)) - 90 + 90) * (Real.pi / 180) = Real.pi / 2 := by
  push_cast
  ring

/-- Claim C2: the claim states that add_scan projects both channels through
the coordinate transform at the current pose, each stored point being
conv_radial of that channel's (angle, radius) pair. For the sonar channel
the call on rover.py line 146 passes sonar_data[:, 0] as both arguments, so
the stored sonar point for the sample (angle 90, radius 50) at the initial
pose is conv_radial(90, 90) = (0, 90), not conv_radial(90, 50) = (0, 50). -/
theorem c2_sonar_projected_with_angle_as_radius :
    (Environment.init.add_scan ⟨[], [((90 : ℚ), some (50 : ℚ))]⟩).sonar_obs =
      [[some ((0 : ℝ), (90 : ℝ))]] ∧
    Environment.init.conv_radial 90 50 = ((0 : ℝ), (50 : ℝ)) ∧
    (some ((0 : ℝ), (90 : ℝ)) : Option (ℝ × ℝ)) ≠ some ((0 : ℝ), (50 : ℝ)) := by
  refine ⟨?_, ?_, ?_⟩
  · simp only [Environment.add_scan, Environment.conv_radial_arr, Environment.conv_radial,
      Environment.init, List.map_nil, List.map_cons, List.zip_nil_right, List.zip_cons_cons,
      List.zip_nil_left, List.length_nil, List.length_cons, if_pos rfl, Option.map_some,
      ninety_at_dir_ninety, Real.cos_pi_div_two, Real.sin_pi_div_two]
    norm_num
  · simp only [Environment.conv_radial, Environment.init, ninety_at_dir_ninety,
      Real.cos_pi_div_two, Real.sin_pi_div_two]
    norm_num
  · simp only [ne_eq, Option.some_inj, Prod.mk.injEq, not_and]
    intro _
    norm_num

/- Environment reached by plotting one volatile contour, for claim C3. -/
noncomputable def envC3 : Environment := Environment.init.add_contour [] [] true

/-- Claim C3: the claim states that finalize_contours is idempotent and
leaves the volatile set empty. In the source _clear_volatile_contours
(rover.py lines 215-223) has its whole body commented out, so the volatile
list survives finalize_contours, and a second call appends the volatile
contours to the finalized list again: starting from one volatile contour,
the finalized list is [c] after one call and [c, c] after two, and the
volatile list is never emptied. -/
theorem c3_finalize_not_idempotent :
    (envC3.finalize_contours).volatile_contours = [(([], []) : Contour)] ∧
    (envC3.finalize_contours).contours = [(([], []) : Contour)] ∧
    (envC3.finalize_contours.finalize_contours).contours =
      [(([], []) : Contour), (([], []) : Contour)] ∧
    (envC3.finalize_contours.finalize_contours).contours ≠
      (envC3.finalize_contours).contours ∧
    (envC3.finalize_contours).volatile_contours ≠ [] := by
  refine ⟨?_, ?_, ?_, ?_, ?_⟩ <;>
    simp [envC3, Environment.init, Environment.add_contour, Environment.finalize_contours]

/- Prefix-split form of the ordering contract for claim C5: the event tail
   of one operation can be cut so that the scanner replacement and the
   contour finalization lie before the cut, no pose change does, and a pose
   change lies after it. -/
def FinalizeBeforePose (l : List REvent) : Prop :=
  ∃ l1 l2, l = l1 ++ l2 ∧ REvent.scannerReplaced ∈ l1 ∧ REvent.contoursFinalized ∈ l1 ∧
    REvent.poseChanged ∉ l1 ∧ REvent.poseChanged ∈ l2

/-- Claim C5: in every execution of Rover.move and of Rover.rotate the
scanner is replaced by a fresh one, and the events appended to the
environment trace start with the scanner replacement and the contour
finalization strictly before any pose change: no pose mutation precedes the
finalize step within either operation. -/
theorem c5_finalize_before_pose (s : Rover) (dist speed actual : ℚ)
    (stop : OIStopID) (delta : ℚ) :
    ((Rover.move s dist speed actual stop).scanner = Scanner.init ∧
      ∃ tail, (Rover.move s dist speed actual stop).env.events = s.env.events ++ tail ∧
        FinalizeBeforePose tail) ∧
    ((Rover.rotate s delta).scanner = Scanner.init ∧
      ∃ tail, (Rover.rotate s delta).env.events = s.env.events ++ tail ∧
        FinalizeBeforePose tail) := by
  constructor
  · constructor
    · cases stop <;>
        simp [Rover.move, Rover.finalize_for_reorientation, Environment.move,
          Environment.add_breadcumb, Environment.loc_set, Environment.finalize_contours,
          Environment.add_danger]
    · cases stop with
      | full_distance =>
          refine ⟨[REvent.scannerReplaced, REvent.contoursFinalized,
            REvent.breadcrumbAdded, REvent.poseChanged], ?_, ?_⟩
          · simp [Rover.move, Rover.finalize_for_reorientation, Environment.move,
              Environment.add_breadcumb, Environment.loc_set, Environment.finalize_contours,
              Environment.add_danger]
          · exact ⟨[REvent.scannerReplaced, REvent.contoursFinalized],
              [REvent.breadcrumbAdded, REvent.poseChanged], rfl,
              by decide, by decide, by decide, by decide⟩
      | other c =>
          refine ⟨[REvent.scannerReplaced, REvent.contoursFinalized,
            REvent.breadcrumbAdded, REvent.poseChanged, REvent.dangerAdded], ?_, ?_⟩
          · simp [Rover.move, Rover.finalize_for_reorientation, Environment.move,
              Environment.add_breadcumb, Environment.loc_set, Environment.finalize_contours,
              Environment.add_danger]
          · exact ⟨[REvent.scannerReplaced, REvent.contoursFinalized],
              [REvent.breadcrumbAdded, REvent.poseChanged, REvent.dangerAdded], rfl,
              by decide, by decide, by decide, by decide⟩
  · constructor
    · simp [Rover.rotate, Rover.finalize_for_reorientation, Environment.rotate,
        Environment.direction_set, Environment.finalize_contours]
    · refine ⟨[REvent.scannerReplaced, REvent.contoursFinalized, REvent.poseChanged], ?_, ?_⟩
      · simp [Rover.rotate, Rover.finalize_for_reorientation, Environment.rotate,
          Environment.direction_set, Environment.finalize_contours]
      · exact ⟨[REvent.scannerReplaced, REvent.contoursFinalized], [REvent.poseChanged], rfl,
          by decide, by decide, by decide, by decide⟩

/-- Witness for claim C5: the ordering theorem applied to the freshly
constructed rover with a concrete move and rotation. -/
theorem c5_finalize_before_pose_witness :
    ((Rover.move Rover.init 300 90 300 OIStopID.full_distance).scanner = Scanner.init ∧
      ∃ tail, (Rover.move Rover.init 300 90 300 OIStopID.full_distance).env.events =
          Rover.init.env.events ++ tail ∧ FinalizeBeforePose tail) ∧
    ((Rover.rotate Rover.init 45).scanner = Scanner.init ∧
      ∃ tail, (Rover.rotate Rover.init 45).env.events = Rover.init.env.events ++ tail ∧
        FinalizeBeforePose tail) :=
  c5_finalize_before_pose Rover.init 300 90 300 OIStopID.full_distance 45

/-- Claim C7: the claim states that scan(start, end) with start > end
requests a descending angle sequence from start down to end, nonempty
whenever start > end + 1. The source builds range(end, start, -1)
(rover.py line 538), which steps downward from end, so for end < start it
is empty: a sweep requested as 180 down to 0 requests no angles at all,
while the ascending direction of the same pair is nonempty. -/
theorem c7_descending_sweep_is_empty :
    Rover.scanAngles 180 0 = ([] : List ℤ) ∧
    (180 : ℤ) > 0 + 1 ∧
    Rover.scanAngles 0 180 ≠ ([] : List ℤ) := by
  refine ⟨by decide, by decide, by decide⟩

/-- Claim C8: Environment.move(100) from the initial pose, location (0, 0)
and heading 90, appends exactly one breadcrumb, centered at the pre-move
location (0, 0), records it before the pose-changed event, and leaves the
new location equal to (0, 100). -/
theorem c8_move_scenario :
    (Environment.init.move 100).breadcrumbs = [(((0 : ℝ), (0 : ℝ)), 16.25)] ∧
    (Environment.init.move 100).loc = ((0 : ℝ), (100 : ℝ)) ∧
    (Environment.init.move 100).events = [REvent.breadcrumbAdded, REvent.poseChanged] := by
  refine ⟨?_, ?_, ?_⟩
  · simp [Environment.move, Environment.add_breadcumb, Environment.loc_set, Environment.init]
  · simp only [Environment.move, Environment.add_breadcumb, Environment.loc_set,
      Environment.conv_radial, Environment.init, ninety_at_dir_ninety,
      Real.cos_pi_div_two, Real.sin_pi_div_two]
    norm_num
  · simp [Environment.move, Environment.add_breadcumb, Environment.loc_set, Environment.init]

/-- Claim C10: for every scan with start <= end, the requested angle set is
exactly the integers from start up to but excluding end; in particular the
end angle itself is never sampled. -/
theorem c10_ascending_excludes_end (start fin a : ℤ) (h : start ≤ fin) :
    a ∈ Rover.scanAngles start fin ↔ start ≤ a ∧ a < fin := by
  simp only [Rover.scanAngles, if_pos h, pyRangeAsc, List.mem_map, List.mem_range]
  constructor
  · rintro ⟨i, hi, rfl⟩
    omega
  · intro hab
    exact ⟨(a - start).toNat, by omega, by omega⟩

/-- Witness for claim C10: the sweep from 0 to 180 contains angle 5 and
does not contain the end angle 180. -/
theorem c10_ascending_excludes_end_witness :
    ((5 : ℤ) ∈ Rover.scanAngles 0 180 ↔ (0 : ℤ) ≤ 5 ∧ (5 : ℤ) < 180) ∧
    ((180 : ℤ) ∈ Rover.scanAngles 0 180 ↔ (0 : ℤ) ≤ 180 ∧ (180 : ℤ) < 180) :=
  ⟨c10_ascending_excludes_end 0 180 5 (by decide),
   c10_ascending_excludes_end 0 180 180 (by decide)⟩
